import Mathlib

/-!
Shallow embedding of the procedural-geometry and animation core of
`MergedScene.cpp` (terrain heightfield generation, terrain texture
classification, parametric solid generators, turbine assembly transforms,
and the per-tick animation update), together with theorems checking the
design document's claims against this embedding.

Floating-point values are modelled as real numbers; the pseudo-random
stream produced by repeated calls to `rand()` is modelled as an explicit
function from call index to value, with the call position threaded
explicitly.
-/

namespace MergedScene

/-- Turbine dimensional parameters, mirroring struct `TurbineGeometry`.
Segment counts are mathematical integers (C++ `int`). -/
structure TurbineGeometry where
  baseRadius : ℝ
  topRadius : ℝ
  height : ℝ
  segments : ℤ
  nacelleLength : ℝ
  nacelleWidth : ℝ
  nacelleHeight : ℝ
  bladeLength : ℝ
  hubRadius : ℝ
  bladeSegments : ℤ
  foundationRadius : ℝ
  foundationHeight : ℝ

/-- The global `turbineParams` instance with the default member values
from the source. -/
noncomputable def turbineParams : TurbineGeometry :=
  { baseRadius := 3.5
    topRadius := 1.8
    height := 80.0
    segments := 24
    nacelleLength := 12.0
    nacelleWidth := 4.0
    nacelleHeight := 4.5
    bladeLength := 45.0
    hubRadius := 2.2
    bladeSegments := 20
    foundationRadius := 8.0
    foundationHeight := 2.0 }

/-- Mutable globals read and written by `update` and the wind-speed keys:
`windSpeed`, `bladeRotation`, `nacelle_yaw`, `towerSway`,
`timeAccumulator`, `animationEnabled` and the scene angle `_angle`. -/
structure AnimState where
  windSpeed : ℝ
  bladeRotation : ℝ
  nacelle_yaw : ℝ
  towerSway : ℝ
  timeAccumulator : ℝ
  animationEnabled : Bool
  sceneAngle : ℝ

open Classical in
/-- One animation tick, mirroring `update()`: when `animationEnabled`,
accumulate time, advance `bladeRotation` by `windSpeed * 2.0` with a single
conditional subtraction of 360, and recompute `nacelle_yaw` and
`towerSway` from the accumulated time; in every case advance the global
scene angle `_angle`. -/
noncomputable def update (s : AnimState) : AnimState :=
  let s1 :=
    if s.animationEnabled then
      let t := s.timeAccumulator + 0.016
      let br0 := s.bladeRotation + s.windSpeed * 2.0
      let br := if br0 ≥ 360.0 then br0 - 360.0 else br0
      { s with timeAccumulator := t
               bladeRotation := br
               nacelle_yaw := Real.sin (t * 0.3) * 15.0
               towerSway := Real.sin (t * 0.8) * 0.5 + Real.cos (t * 0.6) * 0.3 }
    else s
  let a0 := s1.sceneAngle + 0.02
  { s1 with sceneAngle := if a0 ≥ 360.0 then a0 - 360.0 else a0 }

/-- Key `1` in `keyboardHandler`: `windSpeed = std::max(0.1f, windSpeed - 0.2f)`. -/
noncomputable def decreaseWindSpeed (w : ℝ) : ℝ := max 0.1 (w - 0.2)

/-- Key `2` in `keyboardHandler`: `windSpeed = std::min(5.0f, windSpeed + 0.2f)`. -/
noncomputable def increaseWindSpeed (w : ℝ) : ℝ := min 5.0 (w + 0.2)

/-- Grid dimension constant `TERRAIN_SIZE = 50`. -/
def TERRAIN_SIZE : ℕ := 50

/-- Height-scale constant `HEIGHT_SCALE = 3.0f`. -/
noncomputable def HEIGHT_SCALE : ℝ := 3.0

/-- Elevation of grid cell (i, j), the loop body of `generateTerrain`:
three sinusoidal terms accumulated into `h`. -/
noncomputable def terrainHeightAt (i j : ℕ) : ℝ :=
  Real.sin (i * 0.3) * Real.cos (j * 0.3) * HEIGHT_SCALE
    + Real.sin (i * 0.1) * Real.sin (j * 0.15) * HEIGHT_SCALE * 2.0
    + Real.sin (i * 0.05) * Real.cos (j * 0.08) * HEIGHT_SCALE * 0.5

/-- The `generateTerrain` routine: fills the (size+1) x (size+1) grid
`terrainHeights` row by row. A pure function of the size (and the fixed
scale), with no random input. -/
noncomputable def generateTerrain (size : ℕ) : List (List ℝ) :=
  (List.range (size + 1)).map fun i =>
    (List.range (size + 1)).map fun j => terrainHeightAt i j

/-- Written from the spec wording of claim C6 and section 4.1: elevation is
`sin(i*0.3)*cos(j*0.3)*S + sin(i*0.1)*sin(j*0.15)*2*S + sin(i*0.05)*cos(j*0.08)*0.5*S`
for a height scale S. Used only to compare with the embedded generator. -/
noncomputable def heightSpecFormula (i j : ℕ) (S : ℝ) : ℝ :=
  Real.sin (i * 0.3) * Real.cos (j * 0.3) * S
    + Real.sin (i * 0.1) * Real.sin (j * 0.15) * 2 * S
    + Real.sin (i * 0.05) * Real.cos (j * 0.08) * 0.5 * S

/-- One `rand()` draw mapped to the cell's uniform value
`rf = (rand() % 100) / 100.0f`. The resulting rational is one of
0, 0.01, ..., 0.99; every threshold comparison below behaves identically
to the float comparison in the source because each threshold constant and
each quotient k/100 round to the same float when they are equal as reals. -/
def randToUnit (k : ℕ) : ℚ := (k % 100 : ℕ) / 100

/-- Tier classification in `generateMultiTextureTerrain` before the
override line: the if/else chain on the cell's elevation and `rf`.
Labels: 0 grass, 1 rock, 2 label A, 3 label B. -/
def classifyTier (h r : ℚ) : ℕ :=
  if h < -2.0 then (if r > 0.7 then 3 else 2)
  else if h < 2.0 then (if r > 0.6 then 3 else 0)
  else if h < 5.0 then (if r > 0.5 then 1 else 0)
  else 1

/-- One loop-body iteration of `generateMultiTextureTerrain` for a cell of
elevation `h`: draw `rf` from the rand() stream at call position `pos`,
classify by tier, then apply the override `if (rf > 0.95) label = rand() % 4`
which consumes a second draw. Returns the stored label together with the
next stream position. -/
def cellStep (h : ℚ) (stream : ℕ → ℕ) (pos : ℕ) : ℕ × ℕ :=
  let rf := randToUnit (stream pos)
  let base := classifyTier h rf
  if rf > 0.95 then (stream (pos + 1) % 4, pos + 2) else (base, pos + 1)

/-- Whole-grid classification, mirroring the double loop of
`generateMultiTextureTerrain` with the `rand()` call position threaded in
row-major order (the stream abstracts the `srand(42)`-seeded generator). -/
def classifyGrid (size : ℕ) (heights : ℕ → ℕ → ℚ) (stream : ℕ → ℕ) :
    List (List ℕ) × ℕ :=
  (List.range (size + 1)).foldl
    (fun acc i =>
      let rowAcc := (List.range (size + 1)).foldl
        (fun racc j =>
          let st := cellStep (heights i j) stream racc.2
          (racc.1 ++ [st.1], st.2)) (([] : List ℕ), acc.2)
      (acc.1 ++ [rowAcc.1], rowAcc.2)) (([] : List (List ℕ)), 0)

/-- Written from the claim C1 wording: tiered label from (h, r), then the
override replaces the label with a pick among the 4 labels exactly when
the same r exceeds 0.95. Used only to compare with the embedded code. -/
def classifySpecCell (h r : ℚ) (pick : ℕ) : ℕ :=
  let tier :=
    if h < -2.0 then (if r > 0.7 then 3 else 2)
    else if h < 2.0 then (if r > 0.6 then 3 else 0)
    else if h < 5.0 then (if r > 0.5 then 1 else 0)
    else 1
  if r > 0.95 then pick % 4 else tier

/-- A vertex as emitted by the immediate-mode generators: position, the
normal set just before it, and texture coordinates. -/
structure Vertex3 where
  px : ℝ
  py : ℝ
  pz : ℝ
  nx : ℝ
  ny : ℝ
  nz : ℝ
  tu : ℝ
  tv : ℝ

/-- Index list of a C-style loop `for (int k = 0; k < s; ++k)`: the
indices 0, ..., s-1, empty when s is zero or negative. -/
def intRange (s : ℤ) : List ℕ := List.range s.toNat

/-- One vertex of `drawEllipsoid` at polar index i and azimuthal index j:
u = i/segments*pi, v = j/segments*2pi, position
(a cos u cos v, b sin u, c cos u sin v), normal (x/a, y/b, z/c),
texture (j/segments, i/segments). -/
noncomputable def ellipsoidVertex (a b c : ℝ) (segments : ℤ) (i j : ℕ) : Vertex3 :=
  let u := (i : ℝ) / (segments : ℝ) * Real.pi
  let v := (j : ℝ) / (segments : ℝ) * (2 * Real.pi)
  let x := a * Real.cos u * Real.cos v
  let y := b * Real.sin u
  let z := c * Real.cos u * Real.sin v
  { px := x, py := y, pz := z
    nx := x / a, ny := y / b, nz := z / c
    tu := (j : ℝ) / (segments : ℝ), tv := (i : ℝ) / (segments : ℝ) }

/-- The `drawEllipsoid` routine as the sequence of vertices it emits: one
quad (four vertices at parameter corners (i,j), (i+1,j), (i+1,j+1),
(i,j+1)) per iteration of the doubly nested loop. -/
noncomputable def drawEllipsoid (a b c : ℝ) (segments : ℤ) : List Vertex3 :=
  (intRange segments).flatMap fun i =>
    (intRange segments).flatMap fun j =>
      [ellipsoidVertex a b c segments i j,
       ellipsoidVertex a b c segments (i + 1) j,
       ellipsoidVertex a b c segments (i + 1) (j + 1),
       ellipsoidVertex a b c segments i (j + 1)]

/-- One vertex of `drawTorus` at major index i and minor index j:
u = i/majorSegments*2pi, v = j/minorSegments*2pi, position
((R + m cos v) cos u, (R + m cos v) sin u, m sin v), normal
(cos v cos u, cos v sin u, sin v), texture (u/2pi, v/2pi). -/
noncomputable def torusVertex (majorRadius minorRadius : ℝ)
    (majorSegments minorSegments : ℤ) (i j : ℕ) : Vertex3 :=
  let u := (i : ℝ) / (majorSegments : ℝ) * (2 * Real.pi)
  let v := (j : ℝ) / (minorSegments : ℝ) * (2 * Real.pi)
  { px := (majorRadius + minorRadius * Real.cos v) * Real.cos u
    py := (majorRadius + minorRadius * Real.cos v) * Real.sin u
    pz := minorRadius * Real.sin v
    nx := Real.cos v * Real.cos u
    ny := Real.cos v * Real.sin u
    nz := Real.sin v
    tu := u / (2 * Real.pi), tv := v / (2 * Real.pi) }

/-- The `drawTorus` routine as the sequence of vertices it emits: one quad
(corners (i,j), (i+1,j), (i+1,j+1), (i,j+1)) per iteration of the doubly
nested loop. -/
noncomputable def drawTorus (majorRadius minorRadius : ℝ)
    (majorSegments minorSegments : ℤ) : List Vertex3 :=
  (intRange majorSegments).flatMap fun i =>
    (intRange minorSegments).flatMap fun j =>
      [torusVertex majorRadius minorRadius majorSegments minorSegments i j,
       torusVertex majorRadius minorRadius majorSegments minorSegments (i + 1) j,
       torusVertex majorRadius minorRadius majorSegments minorSegments (i + 1) (j + 1),
       torusVertex majorRadius minorRadius majorSegments minorSegments i (j + 1)]

/-- Rotation about the Y axis by an angle in degrees, as
`glRotatef(angle, 0, 1, 0)` maps a point. -/
noncomputable def rotYdeg (angle : ℝ) (p : ℝ × ℝ × ℝ) : ℝ × ℝ × ℝ :=
  let θ := angle * Real.pi / 180
  (p.1 * Real.cos θ + p.2.2 * Real.sin θ, p.2.1,
   -p.1 * Real.sin θ + p.2.2 * Real.cos θ)

/-- Rotation by -90 degrees about the X axis, as `glRotatef(-90, 1, 0, 0)`
maps a point: (x, y, z) to (x, z, -y). -/
noncomputable def rotXneg90 (p : ℝ × ℝ × ℝ) : ℝ × ℝ × ℝ := (p.1, p.2.2, -p.2.1)

/-- Translation by a displacement vector, as `glTranslatef` maps a point. -/
noncomputable def translateV (d p : ℝ × ℝ × ℝ) : ℝ × ℝ × ℝ :=
  (p.1 + d.1, p.2.1 + d.2.1, p.2.2 + d.2.2)

/-- The sixteen vertices of blade segment i in `drawBlade` (four textured
quads: top, bottom, leading edge, trailing edge). The segment's matrix is
`glTranslatef(0, y1, 0)` composed with `glRotatef(twist1, 0, 1, 0)`:
positions are rotated then translated; emitted normals are rotated. -/
noncomputable def bladeSegmentQuads (g : TurbineGeometry) (i : ℕ) : List Vertex3 :=
  let segments := g.bladeSegments
  let segLen := g.bladeLength / (segments : ℝ)
  let t1 := (i : ℝ) / (segments : ℝ)
  let t2 := ((i : ℝ) + 1) / (segments : ℝ)
  let width1 := g.hubRadius * (1 - t1 * 0.8)
  let width2 := g.hubRadius * (1 - t2 * 0.8)
  let thick1 := width1 * 0.15
  let thick2 := width2 * 0.15
  let y1 := t1 * g.bladeLength
  let twist1 := t1 * 25.0
  let mk : ℝ × ℝ × ℝ → ℝ × ℝ × ℝ → ℝ × ℝ → Vertex3 := fun pos nrm tex =>
    let p := translateV (0, y1, 0) (rotYdeg twist1 pos)
    let n := rotYdeg twist1 nrm
    { px := p.1, py := p.2.1, pz := p.2.2
      nx := n.1, ny := n.2.1, nz := n.2.2
      tu := tex.1, tv := tex.2 }
  [mk (-width1, 0, thick1) (0, 0, 1) (0, t1),
   mk (width1, 0, thick1) (0, 0, 1) (1, t1),
   mk (width2, segLen, thick2) (0, 0, 1) (1, t2),
   mk (-width2, segLen, thick2) (0, 0, 1) (0, t2),
   mk (-width1, 0, -thick1) (0, 0, -1) (0, t1),
   mk (-width2, segLen, -thick2) (0, 0, -1) (0, t2),
   mk (width2, segLen, -thick2) (0, 0, -1) (1, t2),
   mk (width1, 0, -thick1) (0, 0, -1) (1, t1),
   mk (width1, 0, thick1) (1, 0, 0) (0, t1),
   mk (width1, 0, -thick1) (1, 0, 0) (0, t1),
   mk (width2, segLen, -thick2) (1, 0, 0) (1, t2),
   mk (width2, segLen, thick2) (1, 0, 0) (1, t2),
   mk (-width1, 0, thick1) (-1, 0, 0) (0, t1),
   mk (-width2, segLen, thick2) (-1, 0, 0) (1, t2),
   mk (-width2, segLen, -thick2) (-1, 0, 0) (1, t2),
   mk (-width1, 0, -thick1) (-1, 0, 0) (0, t1)]

/-- The `drawBlade` routine as the sequence of vertices it emits. -/
noncomputable def drawBlade (g : TurbineGeometry) : List Vertex3 :=
  (intRange g.bladeSegments).flatMap fun i => bladeSegmentQuads g i

/-- Divisors of the divisions `drawBlade` performs: the divisor of
`segLen = bladeLength / segments`, computed unconditionally before the
loop, followed by the divisors of `t1 = i / segments` and
`t2 = (i+1) / segments` in each iteration. -/
def bladeDivisors (segments : ℤ) : List ℤ :=
  segments :: ((intRange segments).flatMap fun _ => [segments, segments])

/-- Divisors of the divisions `drawEllipsoid` performs; every division
(the u, v parameters and the texture coordinates) has divisor `segments`
and occurs inside the doubly nested loop. The multiplicity per quad is
the eight divisions of the loop body. -/
def ellipsoidDivisors (segments : ℤ) : List ℤ :=
  (intRange segments).flatMap fun _ =>
    (intRange segments).flatMap fun _ =>
      List.replicate 8 segments

/-- Divisors of the segment-count divisions `drawTorus` performs
(u over majorSegments, v over minorSegments); all occur inside the
doubly nested loop. The remaining divisions divide by 2 pi, a nonzero
constant. -/
def torusDivisors (majorSegments minorSegments : ℤ) : List ℤ :=
  (intRange majorSegments).flatMap fun _ =>
    (intRange minorSegments).flatMap fun _ =>
      [majorSegments, majorSegments, minorSegments, minorSegments]

/-- Lateral-surface point of `gluCylinder(quad, base, top, height, ...)`
at height fraction t in [0,1] and angle φ: the radius interpolates
linearly from baseRadius to topRadius and the axis is the local +z axis. -/
noncomputable def cylinderLateralPoint (baseRadius topRadius height t φ : ℝ) : ℝ × ℝ × ℝ :=
  ((baseRadius + (topRadius - baseRadius) * t) * Real.cos φ,
   (baseRadius + (topRadius - baseRadius) * t) * Real.sin φ,
   t * height)

/-- Position, in the turbine instance frame, of a foundation-cylinder
surface point: `drawFoundation` translates by
(0, -foundationHeight * 0.5, 0), rotates -90 degrees about X, and draws
`drawSolidCylinder(foundationRadius, foundationRadius, foundationHeight, 32)`. -/
noncomputable def foundationPoint (g : TurbineGeometry) (t φ : ℝ) : ℝ × ℝ × ℝ :=
  translateV (0, -(g.foundationHeight * 0.5), 0)
    (rotXneg90 (cylinderLateralPoint g.foundationRadius g.foundationRadius
      g.foundationHeight t φ))

/-- Position, in the turbine instance frame, of a tower-frustum surface
point: `drawWindTurbine` translates by (0, foundationHeight, 0), then
`drawTurbineTower` rotates -90 degrees about X and draws
`drawSolidCylinder(baseRadius, topRadius, height, segments)`. -/
noncomputable def towerPoint (g : TurbineGeometry) (t φ : ℝ) : ℝ × ℝ × ℝ :=
  translateV (0, g.foundationHeight, 0)
    (rotXneg90 (cylinderLateralPoint g.baseRadius g.topRadius g.height t φ))

/-- Distance of a vertex from the circle of radius R centered at the
origin in the z = 0 plane (the torus central ring in its local frame). -/
noncomputable def vertexRingDist (R : ℝ) (v : Vertex3) : ℝ :=
  Real.sqrt ((Real.sqrt (v.px ^ 2 + v.py ^ 2) - R) ^ 2 + v.pz ^ 2)

/-- Concrete animation state used by the witnesses: blade at 359 degrees,
wind speed 1, animation enabled. -/
noncomputable def probeEnabledState : AnimState :=
  { windSpeed := 1, bladeRotation := 359, nacelle_yaw := 0, towerSway := 0,
    timeAccumulator := 0, animationEnabled := true, sceneAngle := 0 }

/-- Concrete animation state with animation disabled and nonzero values in
every animated field. -/
noncomputable def probeDisabledState : AnimState :=
  { windSpeed := 1, bladeRotation := 123, nacelle_yaw := 4, towerSway := 0.5,
    timeAccumulator := 7, animationEnabled := false, sceneAngle := 0 }

/-- Turbine parameters with a zero blade segment count, probing the
degenerate tessellation path. -/
noncomputable def zeroSegGeometry : TurbineGeometry :=
  { turbineParams with bladeSegments := 0 }

lemma update_enabled_eq (s : AnimState) :
    (update s).animationEnabled = s.animationEnabled := by
  by_cases h : s.animationEnabled <;> simp [update, h]

lemma iterate_update_enabled (s : AnimState) (n : ℕ) :
    (update^[n] s).animationEnabled = s.animationEnabled := by
  induction n with
  | zero => rfl
  | succ m ih => rw [Function.iterate_succ_apply', update_enabled_eq, ih]

lemma update_disabled_fix (s : AnimState) (h : s.animationEnabled = false) :
    (update s).bladeRotation = s.bladeRotation
      ∧ (update s).nacelle_yaw = s.nacelle_yaw
      ∧ (update s).towerSway = s.towerSway
      ∧ (update s).timeAccumulator = s.timeAccumulator := by
  simp [update, h]

/-- C1: the label `generateMultiTextureTerrain` stores for a cell of
elevation h equals the claim's rule evaluated at the cell's uniform draw
r (tier thresholds 0.7, 0.6, 0.5 with labels grass 0, rock 1, A 2, B 3,
and an override by a pick among the four labels exactly when that same r
exceeds 0.95), and the stored label is always one of the four labels. -/
theorem classifier_matches_claim (h : ℚ) (stream : ℕ → ℕ) (pos : ℕ) :
    (cellStep h stream pos).1
      = classifySpecCell h (randToUnit (stream pos)) (stream (pos + 1))
      ∧ (cellStep h stream pos).1 < 4 := by
  constructor
  · simp only [cellStep, classifySpecCell, classifyTier]
    split_ifs <;> rfl
  · simp only [cellStep, classifyTier]
    split_ifs <;> simp only [] <;> omega

/-- C10: a cell whose draw r exceeds 0.95 stores a label obtained from a
fresh draw (the next rand() value mod 4) and consumes two values from the
seeded stream, while every other cell stores its tier label and consumes
one, shifting the stream position seen by all later cells. -/
theorem override_uses_fresh_draw (h : ℚ) (stream : ℕ → ℕ) (pos : ℕ) :
    (cellStep h stream pos).1
      = (if randToUnit (stream pos) > 0.95 then stream (pos + 1) % 4
         else classifyTier h (randToUnit (stream pos)))
      ∧ (cellStep h stream pos).2
      = pos + (if randToUnit (stream pos) > 0.95 then 2 else 1) := by
  simp only [cellStep]
  split_ifs <;> simp

/-- C4: with animation enabled, one tick keeps bladeRotation inside
[0, 360) whenever it starts there and windSpeed lies in [0.1, 5.0] (the
increment windSpeed * 2.0 followed by one conditional subtraction of 360
suffices), and the two wind-speed key handlers keep windSpeed within
[0.1, 5.0]. -/
theorem bladeRotation_stays_in_range (s : AnimState)
    (he : s.animationEnabled = true)
    (h0 : 0 ≤ s.bladeRotation) (h1 : s.bladeRotation < 360)
    (hw0 : 0.1 ≤ s.windSpeed) (hw1 : s.windSpeed ≤ 5.0) :
    (0 ≤ (update s).bladeRotation ∧ (update s).bladeRotation < 360)
      ∧ (0.1 ≤ decreaseWindSpeed s.windSpeed
          ∧ decreaseWindSpeed s.windSpeed ≤ 5.0)
      ∧ (0.1 ≤ increaseWindSpeed s.windSpeed
          ∧ increaseWindSpeed s.windSpeed ≤ 5.0) := by
  refine ⟨?_, ⟨le_max_left _ _, ?_⟩, ⟨?_, min_le_left _ _⟩⟩
  · simp only [update, he, if_true]
    split_ifs with hbr
    · exact ⟨by nlinarith, by nlinarith⟩
    · exact ⟨by nlinarith, by nlinarith⟩
  · exact max_le (by norm_num) (by linarith)
  · exact le_min (by norm_num) (by linarith)

/-- Witness for C4: at bladeRotation 359 and windSpeed 1 the invariant
holds and the tick wraps bladeRotation to exactly 1 degree. -/
theorem bladeRotation_stays_in_range_witness :
    (0 ≤ (update probeEnabledState).bladeRotation
      ∧ (update probeEnabledState).bladeRotation < 360)
      ∧ (update probeEnabledState).bladeRotation = 1 := by
  refine ⟨(bladeRotation_stays_in_range probeEnabledState rfl (by norm_num [probeEnabledState])
    (by norm_num [probeEnabledState]) (by norm_num [probeEnabledState])
    (by norm_num [probeEnabledState])).1, ?_⟩
  norm_num [update, probeEnabledState]

/-- C5: with animation disabled, any number of consecutive ticks leaves
bladeRotation, nacelle_yaw, towerSway and the accumulated time at their
pre-disable values (the scene angle still advances, but none of these
four fields change). -/
theorem disabled_freezes_animation (s : AnimState) (n : ℕ)
    (h : s.animationEnabled = false) :
    (update^[n] s).bladeRotation = s.bladeRotation
      ∧ (update^[n] s).nacelle_yaw = s.nacelle_yaw
      ∧ (update^[n] s).towerSway = s.towerSway
      ∧ (update^[n] s).timeAccumulator = s.timeAccumulator := by
  induction n with
  | zero => exact ⟨rfl, rfl, rfl, rfl⟩
  | succ m ih =>
    have hen : (update^[m] s).animationEnabled = false :=
      (iterate_update_enabled s m).trans h
    have hfix := update_disabled_fix (update^[m] s) hen
    rw [Function.iterate_succ_apply']
    exact ⟨hfix.1.trans ih.1, hfix.2.1.trans ih.2.1,
      hfix.2.2.1.trans ih.2.2.1, hfix.2.2.2.trans ih.2.2.2⟩

/-- Witness for C5: three ticks on a concrete disabled state leave all
four animated quantities at their original values. -/
theorem disabled_freezes_animation_witness :
    (update^[3] probeDisabledState).bladeRotation = probeDisabledState.bladeRotation
      ∧ (update^[3] probeDisabledState).nacelle_yaw = probeDisabledState.nacelle_yaw
      ∧ (update^[3] probeDisabledState).towerSway = probeDisabledState.towerSway
      ∧ (update^[3] probeDisabledState).timeAccumulator
          = probeDisabledState.timeAccumulator :=
  disabled_freezes_animation probeDisabledState 3 rfl

/-- C7: after any enabled tick, the nacelle yaw is bounded by 15 degrees
in magnitude and the tower sway by 0.8, whatever the accumulated time. -/
theorem yaw_and_sway_bounded (s : AnimState) (he : s.animationEnabled = true) :
    |(update s).nacelle_yaw| ≤ 15 ∧ |(update s).towerSway| ≤ 0.8 := by
  simp only [update, he, if_true]
  constructor
  · have h1 := Real.neg_one_le_sin ((s.timeAccumulator + 0.016) * 0.3)
    have h2 := Real.sin_le_one ((s.timeAccumulator + 0.016) * 0.3)
    rw [abs_le]
    constructor <;> nlinarith
  · have h1 := Real.neg_one_le_sin ((s.timeAccumulator + 0.016) * 0.8)
    have h2 := Real.sin_le_one ((s.timeAccumulator + 0.016) * 0.8)
    have h3 := Real.neg_one_le_cos ((s.timeAccumulator + 0.016) * 0.6)
    have h4 := Real.cos_le_one ((s.timeAccumulator + 0.016) * 0.6)
    rw [abs_le]
    constructor <;> nlinarith

/-- Witness for C7 at a concrete enabled state. -/
theorem yaw_and_sway_bounded_witness :
    |(update probeEnabledState).nacelle_yaw| ≤ 15
      ∧ |(update probeEnabledState).towerSway| ≤ 0.8 :=
  yaw_and_sway_bounded probeEnabledState rfl

/-- C6: every entry (i, j), i, j ≤ 50, of the generated heightfield equals
the specification's three-term sinusoidal formula with height scale
S = 3.0; the generator is a pure function of its arguments, with no
random input, so runs with equal size and scale agree. -/
theorem terrain_matches_spec_formula (i j : ℕ) (hi : i ≤ 50) (hj : j ≤ 50) :
    ((generateTerrain 50)[i]?.bind fun row => row[j]?)
      = some (heightSpecFormula i j 3.0) := by
  have hi' : i < 51 := by omega
  have hj' : j < 51 := by omega
  simp [generateTerrain, heightSpecFormula, terrainHeightAt, HEIGHT_SCALE,
    hi', hj']
  ring

/-- Witness for C6 at grid cell (0, 0). -/
theorem terrain_matches_spec_formula_witness :
    ((generateTerrain 50)[0]?.bind fun row => row[0]?)
      = some (heightSpecFormula 0 0 3.0) :=
  terrain_matches_spec_formula 0 0 (by norm_num) (by norm_num)

/-- C2 counterexample: with the default parameters (foundationHeight 2)
the foundation top-face rim point at angle 0 sits at height 1 in the
instance frame, not at 0: the code shifts the cylinder down by only half
its height, so the cylinder is centered at y = 0 rather than topped there. -/
theorem foundation_top_not_at_ground :
    (foundationPoint turbineParams 1 0).2.1 = 1 ∧ (1 : ℝ) ≠ 0 := by
  constructor
  · simp [foundationPoint, cylinderLateralPoint, rotXneg90, translateV,
      turbineParams]
    norm_num
  · norm_num

/-- C2 amended: the foundation cylinder is centered about y = 0, its
surface spanning y in [-foundationHeight/2, foundationHeight/2] (top face
at y = foundationHeight/2, not 0), while the tower frustum starts at
y = foundationHeight and rises straight up (surface height
foundationHeight + t * height for height fraction t). -/
theorem foundation_centered_tower_above (g : TurbineGeometry) (t φ : ℝ)
    (h0 : 0 ≤ t) (h1 : t ≤ 1)
    (hf : 0 ≤ g.foundationHeight) (hh : 0 ≤ g.height) :
    ((foundationPoint g t φ).2.1
        = t * g.foundationHeight - g.foundationHeight * 0.5
      ∧ -(g.foundationHeight * 0.5) ≤ (foundationPoint g t φ).2.1
      ∧ (foundationPoint g t φ).2.1 ≤ g.foundationHeight * 0.5
      ∧ (foundationPoint g 1 φ).2.1 = g.foundationHeight * 0.5)
    ∧ ((towerPoint g t φ).2.1 = g.foundationHeight + t * g.height
      ∧ g.foundationHeight ≤ (towerPoint g t φ).2.1) := by
  have hyf : ∀ u : ℝ, (foundationPoint g u φ).2.1
      = u * g.foundationHeight - g.foundationHeight * 0.5 := by
    intro u
    simp [foundationPoint, cylinderLateralPoint, rotXneg90, translateV]
    ring
  have hyt : (towerPoint g t φ).2.1 = g.foundationHeight + t * g.height := by
    simp [towerPoint, cylinderLateralPoint, rotXneg90, translateV]
    ring
  refine ⟨⟨hyf t, ?_, ?_, ?_⟩, hyt, ?_⟩
  · rw [hyf t]; nlinarith
  · rw [hyf t]; nlinarith
  · rw [hyf 1]; ring
  · rw [hyt]; nlinarith

/-- Witness for the amended C2 at the default parameters, t = 1, angle 0. -/
theorem foundation_centered_tower_above_witness :
    ((foundationPoint turbineParams 1 0).2.1
        = 1 * turbineParams.foundationHeight
            - turbineParams.foundationHeight * 0.5
      ∧ -(turbineParams.foundationHeight * 0.5)
          ≤ (foundationPoint turbineParams 1 0).2.1
      ∧ (foundationPoint turbineParams 1 0).2.1
          ≤ turbineParams.foundationHeight * 0.5
      ∧ (foundationPoint turbineParams 1 0).2.1
          = turbineParams.foundationHeight * 0.5)
    ∧ ((towerPoint turbineParams 1 0).2.1
        = turbineParams.foundationHeight + 1 * turbineParams.height
      ∧ turbineParams.foundationHeight ≤ (towerPoint turbineParams 1 0).2.1) :=
  foundation_centered_tower_above turbineParams 1 0 (by norm_num) (by norm_num)
    (by norm_num [turbineParams]) (by norm_num [turbineParams])

lemma intRange_eq_nil {s : ℤ} (h : s ≤ 0) : intRange s = [] := by
  simp [intRange, Int.toNat_of_nonpos h]

/-- C3 counterexample: with bladeSegments = 0 the blade routine still
computes segLen = bladeLength / segments before its loop, so the list of
divisors it divides by contains 0 — a division by zero is performed even
though the loop emits no geometry. -/
theorem blade_divides_by_zero :
    (0 : ℤ) ∈ bladeDivisors zeroSegGeometry.bladeSegments
      ∧ drawBlade zeroSegGeometry = [] := by
  constructor
  · show (0 : ℤ) ∈ bladeDivisors 0
    simp [bladeDivisors, intRange]
  · show drawBlade zeroSegGeometry = []
    simp [drawBlade, intRange, zeroSegGeometry]

/-- C3 amended: for zero or negative segment counts all three routines
emit no vertices; drawEllipsoid and drawTorus perform no division at all,
while drawBlade still divides bladeLength by the segment count before its
loop, so at count exactly 0 it performs one division by zero (yielding an
IEEE infinity that the empty loop never uses); for negative counts its
pre-loop divisor is nonzero. -/
theorem degenerate_segment_counts_tolerated (g : TurbineGeometry)
    (a b c R m : ℝ) (sE sM sN : ℤ)
    (hE : sE ≤ 0) (hM : sM ≤ 0) (_hN : sN ≤ 0) (hB : g.bladeSegments ≤ 0) :
    drawEllipsoid a b c sE = [] ∧ ellipsoidDivisors sE = []
      ∧ drawTorus R m sM sN = [] ∧ torusDivisors sM sN = []
      ∧ drawBlade g = []
      ∧ ((0 : ℤ) ∈ bladeDivisors g.bladeSegments ↔ g.bladeSegments = 0) := by
  refine ⟨?_, ?_, ?_, ?_, ?_, ?_⟩
  · simp [drawEllipsoid, intRange_eq_nil hE]
  · simp [ellipsoidDivisors, intRange_eq_nil hE]
  · simp [drawTorus, intRange_eq_nil hM]
  · simp [torusDivisors, intRange_eq_nil hM]
  · simp [drawBlade, intRange_eq_nil hB]
  · rw [bladeDivisors, intRange_eq_nil hB]
    simp [eq_comm]

/-- Witness for the amended C3 at segment count 0 everywhere. -/
theorem degenerate_segment_counts_tolerated_witness :
    drawEllipsoid 1 1 1 0 = [] ∧ ellipsoidDivisors 0 = []
      ∧ drawTorus 10 2 0 0 = [] ∧ torusDivisors 0 0 = []
      ∧ drawBlade zeroSegGeometry = []
      ∧ ((0 : ℤ) ∈ bladeDivisors zeroSegGeometry.bladeSegments
          ↔ zeroSegGeometry.bladeSegments = 0) :=
  degenerate_segment_counts_tolerated zeroSegGeometry 1 1 1 10 2 0 0 0
    (by norm_num) (by norm_num) (by norm_num) (by norm_num [zeroSegGeometry])

lemma ellipsoidVertex_norm_sq (r : ℝ) (segments : ℤ) (i j : ℕ) :
    (ellipsoidVertex r r r segments i j).px ^ 2
      + (ellipsoidVertex r r r segments i j).py ^ 2
      + (ellipsoidVertex r r r segments i j).pz ^ 2 = r ^ 2 := by
  simp only [ellipsoidVertex]
  set u := (i : ℝ) / (segments : ℝ) * Real.pi with hudef
  set w := (j : ℝ) / (segments : ℝ) * (2 * Real.pi) with hwdef
  have hu := Real.sin_sq_add_cos_sq u
  have hw := Real.sin_sq_add_cos_sq w
  linear_combination (r ^ 2 * Real.cos u ^ 2) * hw + r ^ 2 * hu

/-- C8: with equal semi-axes r > 0, every vertex drawEllipsoid emits lies
at Euclidean distance exactly r from the origin (the ellipsoid
degenerates to a sphere), and its normal is the position scaled by 1/r in
each component. -/
theorem ellipsoid_degenerates_to_sphere (r : ℝ) (segments : ℤ) (hr : 0 < r)
    (v : Vertex3) (hv : v ∈ drawEllipsoid r r r segments) :
    Real.sqrt (v.px ^ 2 + v.py ^ 2 + v.pz ^ 2) = r
      ∧ v.nx = v.px / r ∧ v.ny = v.py / r ∧ v.nz = v.pz / r := by
  simp only [drawEllipsoid, List.mem_flatMap, List.mem_cons,
    List.not_mem_nil, or_false] at hv
  obtain ⟨i, -, j, -, hv⟩ := hv
  have main : ∀ i' j' : ℕ, v = ellipsoidVertex r r r segments i' j' →
      Real.sqrt (v.px ^ 2 + v.py ^ 2 + v.pz ^ 2) = r
        ∧ v.nx = v.px / r ∧ v.ny = v.py / r ∧ v.nz = v.pz / r := by
    intro i' j' hveq
    subst hveq
    refine ⟨?_, rfl, rfl, rfl⟩
    rw [ellipsoidVertex_norm_sq r segments i' j']
    exact Real.sqrt_sq hr.le
  rcases hv with hv | hv | hv | hv
  · exact main i j hv
  · exact main (i + 1) j hv
  · exact main (i + 1) (j + 1) hv
  · exact main i (j + 1) hv

/-- Witness for C8: a concrete vertex of the unit-radius ellipsoid with a
single segment lies at distance 1 and has its position as normal. -/
theorem ellipsoid_degenerates_to_sphere_witness :
    Real.sqrt ((ellipsoidVertex 1 1 1 1 0 0).px ^ 2
        + (ellipsoidVertex 1 1 1 1 0 0).py ^ 2
        + (ellipsoidVertex 1 1 1 1 0 0).pz ^ 2) = 1
      ∧ (ellipsoidVertex 1 1 1 1 0 0).nx = (ellipsoidVertex 1 1 1 1 0 0).px / 1
      ∧ (ellipsoidVertex 1 1 1 1 0 0).ny = (ellipsoidVertex 1 1 1 1 0 0).py / 1
      ∧ (ellipsoidVertex 1 1 1 1 0 0).nz = (ellipsoidVertex 1 1 1 1 0 0).pz / 1 :=
  ellipsoid_degenerates_to_sphere 1 1 (by norm_num) _
    (by simp [drawEllipsoid, intRange])

lemma torusVertex_ring_dist (M N : ℤ) (i j : ℕ) :
    vertexRingDist 10 (torusVertex 10 2 M N i j) = 2 := by
  simp only [vertexRingDist, torusVertex]
  set u := (i : ℝ) / (M : ℝ) * (2 * Real.pi) with hu
  set w := (j : ℝ) / (N : ℝ) * (2 * Real.pi) with hw
  have hcu := Real.sin_sq_add_cos_sq u
  have hcw1 := Real.neg_one_le_cos w
  have hxy : ((10 + 2 * Real.cos w) * Real.cos u) ^ 2
      + ((10 + 2 * Real.cos w) * Real.sin u) ^ 2
      = (10 + 2 * Real.cos w) ^ 2 := by nlinarith
  rw [hxy, Real.sqrt_sq (by nlinarith)]
  have hz : (10 + 2 * Real.cos w - 10) ^ 2 + (2 * Real.sin w) ^ 2
      = 2 ^ 2 := by
    have := Real.sin_sq_add_cos_sq w
    nlinarith
  rw [hz, Real.sqrt_sq (by norm_num)]

/-- C9: for major radius 10 and minor radius 2, every vertex drawTorus
emits lies at distance exactly the minor radius 2 from the central ring
(the circle of radius 10 about the origin in the equatorial plane),
whatever the segment counts. -/
theorem torus_vertices_on_tube (majorSegments minorSegments : ℤ)
    (v : Vertex3) (hv : v ∈ drawTorus 10 2 majorSegments minorSegments) :
    vertexRingDist 10 v = 2 := by
  simp only [drawTorus, List.mem_flatMap, List.mem_cons,
    List.not_mem_nil, or_false] at hv
  obtain ⟨i, -, j, -, hv⟩ := hv
  rcases hv with hv | hv | hv | hv <;> subst hv <;>
    apply torusVertex_ring_dist

/-- Witness for C9: a concrete vertex of the one-by-one segmented torus
lies at distance 2 from the central ring. -/
theorem torus_vertices_on_tube_witness :
    vertexRingDist 10 (torusVertex 10 2 1 1 0 0) = 2 :=
  torus_vertices_on_tube 1 1 _ (by simp [drawTorus, intRange])

end MergedScene




